import Mathlib

/-!
Verification of the in-memory model registry of the AI-UI repository
(`src/backend/AIUI.py` and `src/backend/app.py`).

Embedding conventions:
* Python dicts (which are insertion-ordered with unique keys) are modelled as
  association lists with an in-place overwriting insert (`dictInsert`) and a
  first-match lookup (`dictGet`).
* `uuid.uuid4()` is modelled as a fresh-id counter carried in the manager state
  (`nextId`); model ids are naturals.
* `random.uniform(0.80, 0.99)` is modelled as an oracle value `r : ℚ` passed
  explicitly to `fine_tune_model`; `round(x, 3)` is modelled by `round3`.
* Methods that mutate `self` return the updated `ModelManager` state; methods
  that raise `ValueError("Model not found")` return `Except.error` paired with
  the post-state.
* The two near-duplicate implementations are embedded separately in namespaces
  `AIUI` (from `src/backend/AIUI.py`) and `App` (from `src/backend/app.py`).
-/

/-- Lookup in a Python dict modelled as an association list: the value at the
first (and, for dicts built by `dictInsert`, only) occurrence of the key. -/
def dictGet {α β : Type} [DecidableEq α] : List (α × β) → α → Option β
  | [], _ => none
  | (k', v) :: rest, k => if k' = k then some v else dictGet rest k

/-- Insertion `d[k] = v` on a Python dict: overwrites the value in place if the key is
present (keeping its position, as Python dicts do), else appends the pair. -/
def dictInsert {α β : Type} [DecidableEq α] : List (α × β) → α → β → List (α × β)
  | [], k, v => [(k, v)]
  | (k', v') :: rest, k, v =>
      if k' = k then (k, v) :: rest else (k', v') :: dictInsert rest k v

/-- A metrics mapping: metric name to numeric value (`model.metrics`). -/
abbrev Metrics := List (String × ℚ)

/-- Class `AIModel` (both files): id, name, version, metrics dict, deployed flag.
Both constructors produce an empty metrics dict when none is supplied, and
`deployed = False`. -/
structure AIModel where
  model_id : Nat
  name : String
  version : String
  metrics : Metrics
  deployed : Bool
deriving DecidableEq, Repr

/-- The `ModelManager` state: the `self.models` dict from id to record, plus
the fresh-id counter modelling `uuid.uuid4()`. -/
structure ModelManager where
  models : List (Nat × AIModel)
  nextId : Nat
deriving DecidableEq, Repr

/-- Python's `round(x, 3)`: round to 3 decimal places. (Tie-breaking at exact
half-thousandths is immaterial to every property proved below: only
monotonicity and fixing multiples of 1/1000 are used.) -/
def round3 (r : ℚ) : ℚ := (round (r * 1000) : ℤ) / 1000

namespace AIUI

/-- Method `ModelManager.add_model` (AIUI.py lines 32–36): fresh id, new record with
empty metrics and `deployed = False`, stored and returned. Never fails. -/
def add_model (mg : ModelManager) (name version : String) : AIModel × ModelManager :=
  let model_id := mg.nextId
  let model : AIModel :=
    { model_id := model_id, name := name, version := version, metrics := [], deployed := false }
  (model, { models := dictInsert mg.models model_id model, nextId := mg.nextId + 1 })

/-- Method `ModelManager.list_models` (AIUI.py lines 38–39): `list(self.models.values())`. -/
def list_models (mg : ModelManager) : List AIModel :=
  mg.models.map (·.2)

/-- Method `ModelManager.get_model` (AIUI.py lines 41–42): `self.models.get(model_id)`. -/
def get_model (mg : ModelManager) (model_id : Nat) : Option AIModel :=
  dictGet mg.models model_id

/-- Method `ModelManager.deploy_model` (AIUI.py lines 44–51): sets `deployed = True`
on the record when present, else raises `ValueError("Model not found")`. -/
def deploy_model (mg : ModelManager) (model_id : Nat) :
    Except String AIModel × ModelManager :=
  match get_model mg model_id with
  | some model =>
      let model := { model with deployed := true }
      (.ok model, { mg with models := dictInsert mg.models model_id model })
  | none => (.error "Model not found", mg)

/-- Method `ModelManager.fine_tune_model` (AIUI.py lines 53–67): raises when the id is
absent; otherwise (after the simulated `time.sleep(5)`) sets
`metrics["accuracy"] = round(random.uniform(0.80, 0.99), 3)` (the draw is the
oracle `r`), then `new_version = tuning_params.get("new_version")` and
overwrites `version` only when `new_version` is truthy, i.e. present and
non-empty (`if new_version:`). -/
def fine_tune_model (mg : ModelManager) (model_id : Nat)
    (tuning_params : List (String × String)) (r : ℚ) :
    Except String AIModel × ModelManager :=
  match get_model mg model_id with
  | none => (.error "Model not found", mg)
  | some model =>
      let model := { model with metrics := dictInsert model.metrics "accuracy" (round3 r) }
      let model :=
        match dictGet tuning_params "new_version" with
        | some new_version =>
            if new_version = "" then model else { model with version := new_version }
        | none => model
      (.ok model, { mg with models := dictInsert mg.models model_id model })

/-- Method `ModelManager.get_metrics` (AIUI.py lines 69–74): returns `model.metrics`
when present, else raises. Does not mutate the manager. -/
def get_metrics (mg : ModelManager) (model_id : Nat) :
    Except String Metrics × ModelManager :=
  match get_model mg model_id with
  | some model => (.ok model.metrics, mg)
  | none => (.error "Model not found", mg)

/-- Constructor `ModelManager.__init__` (AIUI.py lines 26–30): empty dict, then the two
pre-seeded records "Model A" and "Model B", both version "1.0". -/
def init : ModelManager :=
  let mg : ModelManager := { models := [], nextId := 0 }
  let mg := (add_model mg "Model A" "1.0").2
  let mg := (add_model mg "Model B" "1.0").2
  mg

end AIUI

namespace App

/-- Method `ModelManager.add_model` (app.py lines 30–34): identical to AIUI.py. -/
def add_model (mg : ModelManager) (name version : String) : AIModel × ModelManager :=
  let new_id := mg.nextId
  let model : AIModel :=
    { model_id := new_id, name := name, version := version, metrics := [], deployed := false }
  (model, { models := dictInsert mg.models new_id model, nextId := mg.nextId + 1 })

/-- Method `ModelManager.list_models` (app.py lines 36–37). -/
def list_models (mg : ModelManager) : List AIModel :=
  mg.models.map (·.2)

/-- Method `ModelManager.get_model` (app.py lines 39–40). -/
def get_model (mg : ModelManager) (model_id : Nat) : Option AIModel :=
  dictGet mg.models model_id

/-- Method `ModelManager.deploy_model` (app.py lines 42–47). -/
def deploy_model (mg : ModelManager) (model_id : Nat) :
    Except String AIModel × ModelManager :=
  match get_model mg model_id with
  | some model =>
      let model := { model with deployed := true }
      (.ok model, { mg with models := dictInsert mg.models model_id model })
  | none => (.error "Model not found", mg)

/-- Method `ModelManager.fine_tune_model` (app.py lines 49–60): like AIUI.py except
the version update is guarded by `if "new_version" in tuning_params:` — it
overwrites `version` whenever the key is present, even with the empty
string. -/
def fine_tune_model (mg : ModelManager) (model_id : Nat)
    (tuning_params : List (String × String)) (r : ℚ) :
    Except String AIModel × ModelManager :=
  match get_model mg model_id with
  | none => (.error "Model not found", mg)
  | some model =>
      let model := { model with metrics := dictInsert model.metrics "accuracy" (round3 r) }
      let model :=
        match dictGet tuning_params "new_version" with
        | some new_version => { model with version := new_version }
        | none => model
      (.ok model, { mg with models := dictInsert mg.models model_id model })

/-- Method `ModelManager.get_metrics` (app.py lines 62–66). -/
def get_metrics (mg : ModelManager) (model_id : Nat) :
    Except String Metrics × ModelManager :=
  match get_model mg model_id with
  | some model => (.ok model.metrics, mg)
  | none => (.error "Model not found", mg)

/-- Constructor `ModelManager.__init__` (app.py lines 24–28). -/
def init : ModelManager :=
  let mg : ModelManager := { models := [], nextId := 0 }
  let mg := (add_model mg "Model A" "1.0").2
  let mg := (add_model mg "Model B" "1.0").2
  mg

end App

/-- Well-formedness of the manager state: every stored id was produced by the
fresh-id counter, i.e. is below `nextId`. This models the uniqueness guarantee
of `uuid.uuid4()`; it holds for `init` and is preserved by every operation. -/
def wf (mg : ModelManager) : Prop :=
  ∀ p ∈ mg.models, p.1 < mg.nextId

instance (mg : ModelManager) : Decidable (wf mg) := by
  unfold wf; infer_instance

/-- Schema `FineTuneRequest` (AIUI.py lines 85–87): body of `POST /finetune`. -/
structure FineTuneRequest where
  model_id : Nat
  tuning_params : List (String × String)

/-- The inner `fine_tune_task` of the `finetune_model` handler (AIUI.py lines
148–153): runs `manager.fine_tune_model` and catches every exception, only
printing it — the resulting state is whatever the call left behind, and no
error is ever propagated (the function's type has no error outcome). -/
def fine_tune_task (mg : ModelManager) (request : FineTuneRequest) (r : ℚ) : ModelManager :=
  match AIUI.fine_tune_model mg request.model_id request.tuning_params r with
  | (.ok _, mg') => mg'
  | (.error _, mg') => mg'

/-- The `POST /finetune` handler `finetune_model` (AIUI.py lines 146–156): it
schedules `fine_tune_task` as a background task and immediately returns the
"started" message; the response does not depend on the registry state. The
result is the response string paired with the scheduled task. -/
def finetune_model (request : FineTuneRequest) :
    String × (ModelManager → ℚ → ModelManager) :=
  ("Fine-tuning started in background.", fun mg r => fine_tune_task mg request r)

/-- The record-level invariants of the spec's data model, as a relation between
a pre-state and a post-state: every record survives with its id and name, the
`deployed` flag never goes from true to false, and no metrics key is removed. -/
def preserves (mg mg' : ModelManager) : Prop :=
  ∀ id m, AIUI.get_model mg id = some m →
    ∃ m', AIUI.get_model mg' id = some m' ∧
      m'.model_id = m.model_id ∧ m'.name = m.name ∧
      (m.deployed = true → m'.deployed = true) ∧
      ∀ k, (dictGet m.metrics k).isSome → (dictGet m'.metrics k).isSome

/-- A sequence of `add_model` calls: the list of records they return, and the
final manager state. -/
def run_adds (mg : ModelManager) : List (String × String) → List AIModel × ModelManager
  | [] => ([], mg)
  | (name, version) :: rest =>
      ((AIUI.add_model mg name version).1 ::
        (run_adds (AIUI.add_model mg name version).2 rest).1,
       (run_adds (AIUI.add_model mg name version).2 rest).2)

namespace HeapModel

/-!
A second embedding of the registry that makes Python's reference semantics
explicit, needed to settle what `get_metrics` hands to its caller: in
`AIUI.py` line 72 (`return model.metrics`) the caller receives the record's
live `dict` object, not a copy. Records hold a reference (`metricsRef`) into a
heap of metrics dicts; `h_get_metrics` returns that reference.
-/

/-- A model record as a Python object: `metricsRef` is a reference to a
heap-allocated metrics dict. -/
structure HRecord where
  model_id : Nat
  name : String
  version : String
  metricsRef : Nat
  deployed : Bool
deriving DecidableEq, Repr

/-- Registry state with an explicit heap of metrics dicts. -/
structure HState where
  models : List (Nat × HRecord)
  heap : List (Nat × Metrics)
  nextId : Nat
  nextRef : Nat
deriving DecidableEq, Repr

/-- Operation `add_model` under the heap model: `AIModel.__init__` allocates a fresh
empty metrics dict for the new record. -/
def h_add_model (st : HState) (name version : String) : HRecord × HState :=
  let model_id := st.nextId
  let ref := st.nextRef
  let record : HRecord :=
    { model_id := model_id, name := name, version := version,
      metricsRef := ref, deployed := false }
  (record, { models := dictInsert st.models model_id record,
             heap := dictInsert st.heap ref [],
             nextId := st.nextId + 1, nextRef := st.nextRef + 1 })

/-- Constructor `ModelManager.__init__` under the heap model. -/
def h_init : HState :=
  let st : HState := { models := [], heap := [], nextId := 0, nextRef := 0 }
  let st := (h_add_model st "Model A" "1.0").2
  let st := (h_add_model st "Model B" "1.0").2
  st

/-- Operation `ModelManager.get_metrics` under the heap model: `return model.metrics`
hands the caller the reference to the record's live metrics dict. -/
def h_get_metrics (st : HState) (model_id : Nat) : Except String Nat :=
  match dictGet st.models model_id with
  | some record => .ok record.metricsRef
  | none => .error "Model not found"

/-- Dereference a metrics dict (a missing reference reads as empty). -/
def readRef (st : HState) (ref : Nat) : Metrics :=
  (dictGet st.heap ref).getD []

/-- A caller mutating the dict it was handed: `d[k] = v` through the
reference. -/
def writeKey (st : HState) (ref : Nat) (k : String) (v : ℚ) : HState :=
  { st with heap := dictInsert st.heap ref (dictInsert (readRef st ref) k v) }

/-- The metrics the registry itself observes for a model (what `get_model`,
`list_models` and `get_metrics` would serialize). -/
def modelMetrics (st : HState) (model_id : Nat) : Option Metrics :=
  (dictGet st.models model_id).map fun record => readRef st record.metricsRef

end HeapModel

/-! ## Association-list dictionary lemmas -/

theorem dictGet_insert_self {α β : Type} [DecidableEq α] (d : List (α × β)) (k : α) (v : β) :
    dictGet (dictInsert d k v) k = some v := by
  induction d with
  | nil => simp [dictInsert, dictGet]
  | cons p rest ih =>
      obtain ⟨k', v'⟩ := p
      by_cases h : k' = k <;> simp [dictInsert, dictGet, h, ih]

theorem dictGet_insert_ne {α β : Type} [DecidableEq α] (d : List (α × β)) (k k' : α) (v : β)
    (h : k' ≠ k) : dictGet (dictInsert d k v) k' = dictGet d k' := by
  induction d with
  | nil => simp [dictInsert, dictGet, Ne.symm h]
  | cons p rest ih =>
      obtain ⟨k₀, v₀⟩ := p
      by_cases h₀ : k₀ = k
      · subst h₀; simp [dictInsert, dictGet, Ne.symm h]
      · simp [dictInsert, dictGet, h₀, ih]

theorem dictInsert_of_get_eq {α β : Type} [DecidableEq α] (d : List (α × β)) (k : α) (v : β)
    (h : dictGet d k = some v) : dictInsert d k v = d := by
  induction d with
  | nil => simp [dictGet] at h
  | cons p rest ih =>
      obtain ⟨k', v'⟩ := p
      by_cases hk : k' = k
      · subst hk
        simp [dictGet] at h
        simp [dictInsert, h]
      · simp [dictGet, hk] at h
        simp [dictInsert, hk, ih h]

theorem dictGet_mem {α β : Type} [DecidableEq α] (d : List (α × β)) (k : α) (v : β)
    (h : dictGet d k = some v) : (k, v) ∈ d := by
  induction d with
  | nil => simp [dictGet] at h
  | cons p rest ih =>
      obtain ⟨k', v'⟩ := p
      by_cases hk : k' = k
      · subst hk
        simp [dictGet] at h
        simp [h]
      · simp [dictGet, hk] at h
        simp [ih h]

theorem dictGet_insert_isSome {α β : Type} [DecidableEq α] (d : List (α × β)) (k k' : α) (v : β)
    (h : (dictGet d k').isSome) : (dictGet (dictInsert d k v) k').isSome := by
  by_cases hk : k' = k
  · subst hk; simp [dictGet_insert_self]
  · rw [dictGet_insert_ne d k k' v hk]; exact h

theorem dictGet_eq_none_of_lt {β : Type} (d : List (Nat × β)) (n k : Nat)
    (hd : ∀ p ∈ d, p.1 < n) (hk : n ≤ k) : dictGet d k = none := by
  induction d with
  | nil => rfl
  | cons p rest ih =>
      obtain ⟨k', v'⟩ := p
      have hlt : k' < n := hd (k', v') (by simp)
      have : k' ≠ k := by omega
      simp only [dictGet, if_neg this]
      exact ih fun q hq => hd q (by simp [hq])

/-! ## Claim theorems -/

/-- C4: immediately after the registry is constructed, `list()` returns exactly
two records, named "Model A" and "Model B", each with version "1.0",
`deployed = false`, and an empty metrics mapping. -/
theorem C4_initial_registry :
    (AIUI.list_models AIUI.init).length = 2 ∧
    (AIUI.list_models AIUI.init).map AIModel.name = ["Model A", "Model B"] ∧
    ∀ m ∈ AIUI.list_models AIUI.init,
      m.version = "1.0" ∧ m.deployed = false ∧ m.metrics = [] := by
  refine ⟨rfl, rfl, ?_⟩
  decide

/-- C3: `deploy(id)` fails with `NotFound` exactly when no record has that id;
on success it returns the record with `deployed = true`, and deploying again
succeeds with the same result and the same post-state (idempotence). -/
theorem C3_deploy_contract (mg : ModelManager) (id : Nat) :
    ((AIUI.deploy_model mg id).1 = .error "Model not found" ↔
      AIUI.get_model mg id = none) ∧
    ∀ m mg', AIUI.deploy_model mg id = (.ok m, mg') →
      m.deployed = true ∧ AIUI.deploy_model mg' id = (.ok m, mg') := by
  cases h : AIUI.get_model mg id with
  | none =>
      refine ⟨by simp [AIUI.deploy_model, h], ?_⟩
      intro m mg' heq
      simp [AIUI.deploy_model, h] at heq
  | some model =>
      refine ⟨by simp [AIUI.deploy_model, h], ?_⟩
      intro m mg' heq
      simp only [AIUI.deploy_model, h, Prod.mk.injEq] at heq
      obtain ⟨hm, hmg⟩ := heq
      have hm' : m = { model with deployed := true } := by
        cases hm; rfl
      subst hm'
      subst hmg
      refine ⟨rfl, ?_⟩
      have hget : AIUI.get_model
          { mg with models := dictInsert mg.models id { model with deployed := true } } id =
          some { model with deployed := true } := by
        simp [AIUI.get_model, dictGet_insert_self]
      simp only [AIUI.deploy_model, hget, Prod.mk.injEq]
      refine ⟨trivial, ?_⟩
      rw [dictInsert_of_get_eq _ _ _ (dictGet_insert_self mg.models id _)]

/-- Witness for C3: on the freshly initialized registry, deploying id 5 fails
with `NotFound`, while deploying id 0 yields a deployed record and repeating
the call returns the same record and post-state. -/
theorem C3_deploy_contract_witness :
    (AIUI.deploy_model AIUI.init 5).1 = Except.error "Model not found" ∧
    ((⟨0, "Model A", "1.0", [], true⟩ : AIModel).deployed = true ∧
      AIUI.deploy_model
        { models := [(0, ⟨0, "Model A", "1.0", [], true⟩),
                     (1, ⟨1, "Model B", "1.0", [], false⟩)], nextId := 2 } 0 =
        (.ok ⟨0, "Model A", "1.0", [], true⟩,
         { models := [(0, ⟨0, "Model A", "1.0", [], true⟩),
                      (1, ⟨1, "Model B", "1.0", [], false⟩)], nextId := 2 })) := by
  refine ⟨(C3_deploy_contract AIUI.init 5).1.mpr rfl, ?_⟩
  exact (C3_deploy_contract AIUI.init 0).2 _ _ rfl

/-- C10: `deploy`, `fineTune` and `getMetrics` on an id not present in the
registry fail with `NotFound` and leave the manager state exactly as it was
(in both implementations). -/
theorem C10_notfound_is_atomic (mg : ModelManager) (id : Nat)
    (params : List (String × String)) (r : ℚ)
    (h : AIUI.get_model mg id = none) :
    AIUI.deploy_model mg id = (.error "Model not found", mg) ∧
    AIUI.fine_tune_model mg id params r = (.error "Model not found", mg) ∧
    AIUI.get_metrics mg id = (.error "Model not found", mg) ∧
    App.deploy_model mg id = (.error "Model not found", mg) ∧
    App.fine_tune_model mg id params r = (.error "Model not found", mg) ∧
    App.get_metrics mg id = (.error "Model not found", mg) := by
  have h' : App.get_model mg id = none := h
  refine ⟨?_, ?_, ?_, ?_, ?_, ?_⟩ <;>
    simp [AIUI.deploy_model, AIUI.fine_tune_model, AIUI.get_metrics,
      App.deploy_model, App.fine_tune_model, App.get_metrics, h, h']

/-- Witness for C10: id 99 is absent from the fresh registry, and all three
operations return `NotFound` with the state unchanged. -/
theorem C10_notfound_is_atomic_witness :
    AIUI.deploy_model AIUI.init 99 = (.error "Model not found", AIUI.init) ∧
    AIUI.fine_tune_model AIUI.init 99 [] (9/10) = (.error "Model not found", AIUI.init) ∧
    AIUI.get_metrics AIUI.init 99 = (.error "Model not found", AIUI.init) ∧
    App.deploy_model AIUI.init 99 = (.error "Model not found", AIUI.init) ∧
    App.fine_tune_model AIUI.init 99 [] (9/10) = (.error "Model not found", AIUI.init) ∧
    App.get_metrics AIUI.init 99 = (.error "Model not found", AIUI.init) :=
  C10_notfound_is_atomic AIUI.init 99 [] (9/10) rfl

/-! ## Rounding bounds -/

theorem round_rat_mono {x y : ℚ} (hxy : x ≤ y) : round x ≤ round y := by
  rw [round_eq, round_eq]
  exact Int.floor_mono (by linarith)

theorem round3_bounds (r : ℚ) (h₁ : 4/5 ≤ r) (h₂ : r ≤ 99/100) :
    4/5 ≤ round3 r ∧ round3 r ≤ 99/100 := by
  have hlb : (800 : ℤ) ≤ round (r * 1000) := by
    have : round ((800 : ℤ) : ℚ) ≤ round (r * 1000) :=
      round_rat_mono (by push_cast; linarith)
    rwa [round_intCast] at this
  have hub : round (r * 1000) ≤ (990 : ℤ) := by
    have : round (r * 1000) ≤ round ((990 : ℤ) : ℚ) :=
      round_rat_mono (by push_cast; linarith)
    rwa [round_intCast] at this
  have hlb' : (800 : ℚ) ≤ (round (r * 1000) : ℤ) := by exact_mod_cast hlb
  have hub' : ((round (r * 1000) : ℤ) : ℚ) ≤ 990 := by exact_mod_cast hub
  unfold round3
  constructor <;> [linarith; linarith]

/-- C5: `fineTune(id, {})` on a known id succeeds, leaves `version` (and the
id, name and deployed flag) unchanged, sets `metrics["accuracy"]` to the drawn
value rounded to 3 decimal places — which lies in the closed interval
[0.80, 0.99] whenever the draw does — and changes no other metrics key; the
registry is updated only at that record. -/
theorem C5_finetune_empty_params (mg : ModelManager) (id : Nat) (r : ℚ) (m : AIModel)
    (hm : AIUI.get_model mg id = some m) (hr₁ : 4/5 ≤ r) (hr₂ : r ≤ 99/100) :
    ∃ m', AIUI.fine_tune_model mg id [] r =
        (.ok m', { mg with models := dictInsert mg.models id m' }) ∧
      m'.version = m.version ∧
      dictGet m'.metrics "accuracy" = some (round3 r) ∧
      4/5 ≤ round3 r ∧ round3 r ≤ 99/100 ∧
      round3 r = ((round (r * 1000) : ℤ) : ℚ) / 1000 ∧
      m'.model_id = m.model_id ∧ m'.name = m.name ∧ m'.deployed = m.deployed ∧
      (∀ k, k ≠ "accuracy" → dictGet m'.metrics k = dictGet m.metrics k) ∧
      (∀ j, j ≠ id → AIUI.get_model { mg with models := dictInsert mg.models id m' } j =
        AIUI.get_model mg j) := by
  obtain ⟨hlb, hub⟩ := round3_bounds r hr₁ hr₂
  refine ⟨{ m with metrics := dictInsert m.metrics "accuracy" (round3 r) }, ?_,
    rfl, dictGet_insert_self _ _ _, hlb, hub, rfl, rfl, rfl, rfl, ?_, ?_⟩
  · simp [AIUI.fine_tune_model, hm, dictGet]
  · intro k hk
    exact dictGet_insert_ne _ _ _ _ hk
  · intro j hj
    exact dictGet_insert_ne _ _ _ _ hj

/-- Witness for C5: fine-tuning "Model A" on the fresh registry with empty
parameters and the draw 0.9. -/
theorem C5_finetune_empty_params_witness :
    ∃ m', AIUI.fine_tune_model AIUI.init 0 [] (9/10) =
        (.ok m', { AIUI.init with models := dictInsert AIUI.init.models 0 m' }) ∧
      m'.version = (⟨0, "Model A", "1.0", [], false⟩ : AIModel).version ∧
      dictGet m'.metrics "accuracy" = some (round3 (9/10)) ∧
      4/5 ≤ round3 (9/10) ∧ round3 (9/10) ≤ 99/100 ∧
      round3 (9/10) = ((round ((9:ℚ)/10 * 1000) : ℤ) : ℚ) / 1000 ∧
      m'.model_id = (⟨0, "Model A", "1.0", [], false⟩ : AIModel).model_id ∧
      m'.name = (⟨0, "Model A", "1.0", [], false⟩ : AIModel).name ∧
      m'.deployed = (⟨0, "Model A", "1.0", [], false⟩ : AIModel).deployed ∧
      (∀ k, k ≠ "accuracy" → dictGet m'.metrics k =
        dictGet (⟨0, "Model A", "1.0", [], false⟩ : AIModel).metrics k) ∧
      (∀ j, j ≠ 0 → AIUI.get_model { AIUI.init with models := dictInsert AIUI.init.models 0 m' } j =
        AIUI.get_model AIUI.init j) :=
  C5_finetune_empty_params AIUI.init 0 (9/10) ⟨0, "Model A", "1.0", [], false⟩
    rfl (by norm_num) (by norm_num)

/-- C1 fails on `src/backend/AIUI.py`: with `tuning_params = {"new_version": ""}`
(the key present, holding the empty string), `fine_tune_model` leaves the
version at "1.0" instead of overwriting it with `""`, because the update is
guarded by Python truthiness (`if new_version:`). -/
theorem C1_counterexample :
    (AIUI.get_model (AIUI.fine_tune_model AIUI.init 0 [("new_version", "")] (9/10)).2 0).map
      AIModel.version = some "1.0" ∧
    "1.0" ≠ "" := by
  constructor
  · rfl
  · decide

/-- C1 amended: when `tuning_params` contains `new_version`, app.py overwrites
`version` with that value unconditionally, while AIUI.py overwrites exactly
when the value is a non-empty string; in particular both set `version` to
"2.0" for `{new_version: "2.0"}`. -/
theorem C1_version_overwrite (mg : ModelManager) (id : Nat)
    (params : List (String × String)) (v : String) (r : ℚ) (m : AIModel)
    (hv : dictGet params "new_version" = some v) (hm : AIUI.get_model mg id = some m) :
    (v ≠ "" → ∃ m' mg', AIUI.fine_tune_model mg id params r = (.ok m', mg') ∧
      m'.version = v) ∧
    (∃ m' mg', App.fine_tune_model mg id params r = (.ok m', mg') ∧ m'.version = v) := by
  have hm' : App.get_model mg id = some m := hm
  constructor
  · intro hne
    have heq : AIUI.fine_tune_model mg id params r =
        (Except.ok
          (⟨m.model_id, m.name, v, dictInsert m.metrics "accuracy" (round3 r), m.deployed⟩ :
            AIModel),
         (⟨dictInsert mg.models id
            ⟨m.model_id, m.name, v, dictInsert m.metrics "accuracy" (round3 r), m.deployed⟩,
           mg.nextId⟩ : ModelManager)) := by
      simp [AIUI.fine_tune_model, hm, hv, hne]
    exact ⟨_, _, heq, rfl⟩
  · have heq : App.fine_tune_model mg id params r =
        (Except.ok
          (⟨m.model_id, m.name, v, dictInsert m.metrics "accuracy" (round3 r), m.deployed⟩ :
            AIModel),
         (⟨dictInsert mg.models id
            ⟨m.model_id, m.name, v, dictInsert m.metrics "accuracy" (round3 r), m.deployed⟩,
           mg.nextId⟩ : ModelManager)) := by
      simp [App.fine_tune_model, hm', hv]
    exact ⟨_, _, heq, rfl⟩

/-- Witness for C1 (amended): `fineTune(id, {new_version: "2.0"})` on the fresh
registry's "Model A" sets the version to "2.0" in both implementations. -/
theorem C1_version_overwrite_witness :
    (∃ m' mg', AIUI.fine_tune_model AIUI.init 0 [("new_version", "2.0")] (9/10) =
      (.ok m', mg') ∧ m'.version = "2.0") ∧
    (∃ m' mg', App.fine_tune_model AIUI.init 0 [("new_version", "2.0")] (9/10) =
      (.ok m', mg') ∧ m'.version = "2.0") :=
  ⟨(C1_version_overwrite AIUI.init 0 [("new_version", "2.0")] "2.0" (9/10)
      ⟨0, "Model A", "1.0", [], false⟩ rfl rfl).1 (by decide),
   (C1_version_overwrite AIUI.init 0 [("new_version", "2.0")] "2.0" (9/10)
      ⟨0, "Model A", "1.0", [], false⟩ rfl rfl).2⟩

/-- C2 fails: the two `ModelManager` implementations are not behaviourally
equivalent. On the fresh registry, `fine_tune_model` with
`tuning_params = {"new_version": ""}` (same random draw 0.9 in both) leaves
different post-states: AIUI.py keeps version "1.0", app.py overwrites it
with `""`. -/
theorem C2_counterexample :
    (AIUI.fine_tune_model AIUI.init 0 [("new_version", "")] (9/10)).2 ≠
      (App.fine_tune_model AIUI.init 0 [("new_version", "")] (9/10)).2 := by
  decide

/-- C2 amended: the two implementations agree on `add_model`, `list_models`,
`get_model`, `deploy_model`, `get_metrics` and the initial registry for every
state and argument; `fine_tune_model` (with the same random draw) agrees
whenever `tuning_params` does not map `new_version` to the empty string. -/
theorem C2_equivalence_except_empty_version (mg : ModelManager)
    (name version : String) (id : Nat) (params : List (String × String)) (r : ℚ) :
    App.add_model mg name version = AIUI.add_model mg name version ∧
    App.list_models mg = AIUI.list_models mg ∧
    App.get_model mg id = AIUI.get_model mg id ∧
    App.deploy_model mg id = AIUI.deploy_model mg id ∧
    App.get_metrics mg id = AIUI.get_metrics mg id ∧
    App.init = AIUI.init ∧
    (dictGet params "new_version" ≠ some "" →
      App.fine_tune_model mg id params r = AIUI.fine_tune_model mg id params r) := by
  refine ⟨rfl, rfl, rfl, rfl, rfl, rfl, ?_⟩
  intro hnv
  cases hg : AIUI.get_model mg id with
  | none =>
      have hg' : App.get_model mg id = none := hg
      simp [AIUI.fine_tune_model, App.fine_tune_model, hg, hg']
  | some model =>
      have hg' : App.get_model mg id = some model := hg
      cases hv : dictGet params "new_version" with
      | none => simp [AIUI.fine_tune_model, App.fine_tune_model, hg, hg', hv]
      | some v =>
          have hne : v ≠ "" := fun h => hnv (h ▸ hv)
          simp [AIUI.fine_tune_model, App.fine_tune_model, hg, hg', hv, hne]

/-- Witness for C2 (amended): concrete agreement of all operations on the
fresh registry, with `tuning_params = {"new_version": "2.0"}`. -/
theorem C2_equivalence_except_empty_version_witness :
    App.add_model AIUI.init "Model C" "0.1" = AIUI.add_model AIUI.init "Model C" "0.1" ∧
    App.list_models AIUI.init = AIUI.list_models AIUI.init ∧
    App.get_model AIUI.init 0 = AIUI.get_model AIUI.init 0 ∧
    App.deploy_model AIUI.init 0 = AIUI.deploy_model AIUI.init 0 ∧
    App.get_metrics AIUI.init 0 = AIUI.get_metrics AIUI.init 0 ∧
    App.init = AIUI.init ∧
    App.fine_tune_model AIUI.init 0 [("new_version", "2.0")] (9/10) =
      AIUI.fine_tune_model AIUI.init 0 [("new_version", "2.0")] (9/10) := by
  obtain ⟨h1, h2, h3, h4, h5, h6, h7⟩ :=
    C2_equivalence_except_empty_version AIUI.init "Model C" "0.1" 0
      [("new_version", "2.0")] (9/10)
  exact ⟨h1, h2, h3, h4, h5, h6, h7 (by decide)⟩

/-! ## Invariant preservation (C6) -/

theorem preserves_self (mg : ModelManager) : preserves mg mg :=
  fun _ m h => ⟨m, h, rfl, rfl, fun d => d, fun _ hk => hk⟩

theorem preserves_insert_existing (mg : ModelManager) (id : Nat) (model m' : AIModel)
    (h : AIUI.get_model mg id = some model)
    (hid : m'.model_id = model.model_id) (hname : m'.name = model.name)
    (hdep : model.deployed = true → m'.deployed = true)
    (hmet : ∀ k, (dictGet model.metrics k).isSome → (dictGet m'.metrics k).isSome) :
    preserves mg { mg with models := dictInsert mg.models id m' } := by
  intro id₀ m₀ h₀
  by_cases hcase : id₀ = id
  · subst hcase
    have hm₀ : m₀ = model := by
      rw [h₀] at h
      exact Option.some.inj h
    subst hm₀
    refine ⟨m', ?_, hid, hname, hdep, hmet⟩
    show dictGet (dictInsert mg.models id₀ m') id₀ = some m'
    exact dictGet_insert_self _ _ _
  · refine ⟨m₀, ?_, rfl, rfl, fun d => d, fun _ hk => hk⟩
    show dictGet (dictInsert mg.models id m') id₀ = some m₀
    rw [dictGet_insert_ne _ _ _ _ hcase]
    exact h₀

/-- C6: every registry operation preserves the data-model invariants: a record
present before is present afterwards with the same id and name, `deployed`
never changes from true to false, and no metrics key is removed. The
hypothesis `wf mg` models the freshness of `uuid.uuid4()` ids (the pure reads
`list_models` and `get_model` leave the state `mg` itself, covered by the
`preserves mg mg` conjunct). -/
theorem C6_operations_preserve_invariants (mg : ModelManager) (hwf : wf mg)
    (name version : String) (id : Nat) (params : List (String × String)) (r : ℚ) :
    preserves mg (AIUI.add_model mg name version).2 ∧
    preserves mg mg ∧
    preserves mg (AIUI.deploy_model mg id).2 ∧
    preserves mg (AIUI.fine_tune_model mg id params r).2 ∧
    preserves mg (AIUI.get_metrics mg id).2 := by
  refine ⟨?_, preserves_self mg, ?_, ?_, ?_⟩
  · intro id₀ m₀ h₀
    have hlt : id₀ < mg.nextId := hwf _ (dictGet_mem _ _ _ h₀)
    refine ⟨m₀, ?_, rfl, rfl, fun d => d, fun _ hk => hk⟩
    show dictGet (dictInsert mg.models mg.nextId _) id₀ = some m₀
    rw [dictGet_insert_ne _ _ _ _ (by omega)]
    exact h₀
  · cases h : AIUI.get_model mg id with
    | none => simpa [AIUI.deploy_model, h] using preserves_self mg
    | some model =>
        have heq : (AIUI.deploy_model mg id).2 =
            { mg with models := dictInsert mg.models id { model with deployed := true } } := by
          simp [AIUI.deploy_model, h]
        rw [heq]
        exact preserves_insert_existing mg id model _ h rfl rfl (fun _ => rfl) (fun _ hk => hk)
  · cases h : AIUI.get_model mg id with
    | none => simpa [AIUI.fine_tune_model, h] using preserves_self mg
    | some model =>
        cases hv : dictGet params "new_version" with
        | none =>
            have heq : (AIUI.fine_tune_model mg id params r).2 =
                (⟨dictInsert mg.models id
                    ⟨model.model_id, model.name, model.version,
                     dictInsert model.metrics "accuracy" (round3 r), model.deployed⟩,
                  mg.nextId⟩ : ModelManager) := by
              simp [AIUI.fine_tune_model, h, hv]
            rw [heq]
            exact preserves_insert_existing mg id model _ h rfl rfl (fun d => d)
              (fun k hk => dictGet_insert_isSome _ _ _ _ hk)
        | some v =>
            by_cases hve : v = ""
            · subst hve
              have heq : (AIUI.fine_tune_model mg id params r).2 =
                  (⟨dictInsert mg.models id
                      ⟨model.model_id, model.name, model.version,
                       dictInsert model.metrics "accuracy" (round3 r), model.deployed⟩,
                    mg.nextId⟩ : ModelManager) := by
                simp [AIUI.fine_tune_model, h, hv]
              rw [heq]
              exact preserves_insert_existing mg id model _ h rfl rfl (fun d => d)
                (fun k hk => dictGet_insert_isSome _ _ _ _ hk)
            · have heq : (AIUI.fine_tune_model mg id params r).2 =
                  (⟨dictInsert mg.models id
                      ⟨model.model_id, model.name, v,
                       dictInsert model.metrics "accuracy" (round3 r), model.deployed⟩,
                    mg.nextId⟩ : ModelManager) := by
                simp [AIUI.fine_tune_model, h, hv, hve]
              rw [heq]
              exact preserves_insert_existing mg id model _ h rfl rfl (fun d => d)
                (fun k hk => dictGet_insert_isSome _ _ _ _ hk)
  · cases h : AIUI.get_model mg id with
    | none => simpa [AIUI.get_metrics, h] using preserves_self mg
    | some model => simpa [AIUI.get_metrics, h] using preserves_self mg

/-- Witness for C6: the invariants hold across each operation applied to the
fresh registry. -/
theorem C6_operations_preserve_invariants_witness :
    preserves AIUI.init (AIUI.add_model AIUI.init "Model C" "0.1").2 ∧
    preserves AIUI.init AIUI.init ∧
    preserves AIUI.init (AIUI.deploy_model AIUI.init 0).2 ∧
    preserves AIUI.init (AIUI.fine_tune_model AIUI.init 0 [] (9/10)).2 ∧
    preserves AIUI.init (AIUI.get_metrics AIUI.init 0).2 :=
  C6_operations_preserve_invariants AIUI.init (by decide) "Model C" "0.1" 0 [] (9/10)

/-! ## Id uniqueness (C7) -/

theorem run_adds_spec (l : List (String × String)) : ∀ mg : ModelManager,
    (run_adds mg l).1.length = l.length ∧
    (run_adds mg l).2.nextId = mg.nextId + l.length ∧
    (∀ m ∈ (run_adds mg l).1, mg.nextId ≤ m.model_id) ∧
    ((run_adds mg l).1.map AIModel.model_id).Nodup := by
  induction l with
  | nil => intro mg; simp [run_adds]
  | cons p rest ih =>
      intro mg
      obtain ⟨name, version⟩ := p
      obtain ⟨ih1, ih2, ih3, ih4⟩ := ih (AIUI.add_model mg name version).2
      have hnext : (AIUI.add_model mg name version).2.nextId = mg.nextId + 1 := rfl
      refine ⟨?_, ?_, ?_, ?_⟩
      · simp [run_adds, ih1]
      · show (run_adds (AIUI.add_model mg name version).2 rest).2.nextId = _
        rw [ih2, hnext, List.length_cons]
        omega
      · intro m hm
        rcases List.mem_cons.mp hm with hm | hm
        · subst hm
          exact le_refl _
        · have := ih3 m hm
          rw [hnext] at this
          omega
      · rw [show (run_adds mg ((name, version) :: rest)).1.map AIModel.model_id =
            mg.nextId :: (run_adds (AIUI.add_model mg name version).2 rest).1.map
              AIModel.model_id from rfl]
        refine List.nodup_cons.mpr ⟨?_, ih4⟩
        intro hmem
        obtain ⟨m, hm, hid⟩ := List.mem_map.mp hmem
        have := ih3 m hm
        rw [hnext] at this
        omega

/-- C7: `create` never fails (every call in any sequence returns a record), and
for every well-formed registry state all ids returned by a sequence of
`add_model` calls are pairwise distinct and distinct from every id already in
the registry — in particular from the two pre-seeded records of `init`. -/
theorem C7_create_ids_unique (mg : ModelManager) (hwf : wf mg)
    (l : List (String × String)) :
    (run_adds mg l).1.length = l.length ∧
    ((run_adds mg l).1.map AIModel.model_id).Nodup ∧
    ∀ m ∈ (run_adds mg l).1, AIUI.get_model mg m.model_id = none := by
  obtain ⟨h1, _, h3, h4⟩ := run_adds_spec l mg
  refine ⟨h1, h4, ?_⟩
  intro m hm
  show dictGet mg.models m.model_id = none
  exact dictGet_eq_none_of_lt _ _ _ hwf (h3 m hm)

/-- Witness for C7: three creations on the fresh registry (two with equal
names) return three pairwise-distinct ids, none colliding with the pre-seeded
records. -/
theorem C7_create_ids_unique_witness :
    (run_adds AIUI.init [("Model C", "0.1"), ("Model D", "2.0"), ("Model C", "0.1")]).1.length =
      ([("Model C", "0.1"), ("Model D", "2.0"), ("Model C", "0.1")] :
        List (String × String)).length ∧
    ((run_adds AIUI.init
        [("Model C", "0.1"), ("Model D", "2.0"), ("Model C", "0.1")]).1.map
      AIModel.model_id).Nodup ∧
    ∀ m ∈ (run_adds AIUI.init
        [("Model C", "0.1"), ("Model D", "2.0"), ("Model C", "0.1")]).1,
      AIUI.get_model AIUI.init m.model_id = none :=
  C7_create_ids_unique AIUI.init (by decide)
    [("Model C", "0.1"), ("Model D", "2.0"), ("Model C", "0.1")]

/-! ## get_metrics aliasing (C8) -/

/-- C8 fails: `get_metrics` hands back the record's live metrics dict, not a
snapshot. On the fresh registry it returns the reference (0) to "Model A"'s
metrics dict; a caller writing `("poisoned", 1)` through that reference
changes the metrics the registry itself observes for the record from `[]` to
`[("poisoned", 1)]`. -/
theorem C8_counterexample :
    HeapModel.h_get_metrics HeapModel.h_init 0 = .ok 0 ∧
    HeapModel.modelMetrics HeapModel.h_init 0 = some [] ∧
    HeapModel.modelMetrics (HeapModel.writeKey HeapModel.h_init 0 "poisoned" 1) 0 =
      some [("poisoned", 1)] :=
  ⟨rfl, rfl, rfl⟩

/-- C8 amended: `get_metrics` returns the record's live metrics mapping (an
alias into the registry), so any write a caller performs through the returned
value is visible in the metrics the registry stores for that record. -/
theorem C8_returns_live_view (st : HeapModel.HState) (model_id : Nat)
    (record : HeapModel.HRecord) (ref : Nat) (k : String) (v : ℚ)
    (hrec : dictGet st.models model_id = some record)
    (href : HeapModel.h_get_metrics st model_id = .ok ref) :
    ref = record.metricsRef ∧
    HeapModel.modelMetrics (HeapModel.writeKey st ref k v) model_id =
      some (dictInsert (HeapModel.readRef st ref) k v) := by
  have h1 : HeapModel.h_get_metrics st model_id = .ok record.metricsRef := by
    simp [HeapModel.h_get_metrics, hrec]
  rw [h1] at href
  have h2 : record.metricsRef = ref := Except.ok.inj href
  subst h2
  refine ⟨rfl, ?_⟩
  simp [HeapModel.modelMetrics, HeapModel.writeKey, HeapModel.readRef, hrec,
    dictGet_insert_self]

/-- Witness for C8 (amended): writing through the reference obtained for
"Model A" on the fresh registry. -/
theorem C8_returns_live_view_witness :
    (0 : Nat) = (⟨0, "Model A", "1.0", 0, false⟩ : HeapModel.HRecord).metricsRef ∧
    HeapModel.modelMetrics (HeapModel.writeKey HeapModel.h_init 0 "x" 1) 0 =
      some (dictInsert (HeapModel.readRef HeapModel.h_init 0) "x" 1) :=
  C8_returns_live_view HeapModel.h_init 0 ⟨0, "Model A", "1.0", 0, false⟩ 0 "x" 1 rfl rfl

/-! ## Fine-tune endpoint (C9) -/

/-- C9: the fine-tune endpoint returns the success ("started") response for
every request — independently of the registry state, including when the
model id names no record — and a `NotFound` raised by the scheduled fine-tune
task is swallowed: the task completes, returning the unchanged state, and no
error reaches any caller. -/
theorem C9_finetune_always_started (request : FineTuneRequest)
    (mg : ModelManager) (r : ℚ) :
    (finetune_model request).1 = "Fine-tuning started in background." ∧
    (AIUI.get_model mg request.model_id = none →
      (finetune_model request).2 mg r = mg) := by
  refine ⟨rfl, ?_⟩
  intro h
  simp [finetune_model, fine_tune_task, AIUI.fine_tune_model, h]

/-- Witness for C9: a request naming the absent id 99 still gets the
"started" response, and the scheduled task leaves the registry unchanged. -/
theorem C9_finetune_always_started_witness :
    (finetune_model ⟨99, []⟩).1 = "Fine-tuning started in background." ∧
    (finetune_model ⟨99, []⟩).2 AIUI.init (9/10) = AIUI.init :=
  ⟨(C9_finetune_always_started ⟨99, []⟩ AIUI.init (9/10)).1,
   (C9_finetune_always_started ⟨99, []⟩ AIUI.init (9/10)).2 rfl⟩
